import Mathlib

/-!
Verification of the SysDB in-memory store and frontend query pipeline.

The store operations (`sdb_store_host`, `sdb_store_service`, ...) and the
connection state machine are modelled from the specification (their C source
is not part of this excerpt; only their unit tests are), reconciled with the
golden data of `t/unit/core/store_test.c` and
`t/unit/frontend/connection_test.c`.  The query frontend
(`sdb_conn_query`, `exec_store`, ...) is translated from
`src/frontend/query.c`.
-/

namespace SysDB

/-- ASCII case folding of a single byte, mirroring C `tolower` for the
ASCII range used by `strcasecmp`. -/
def asciiLower (n : Nat) : Nat :=
  if 65 ≤ n ∧ n ≤ 90 then n + 32 else n

/-- Case-insensitive key of a name: the byte sequence after ASCII
lower-casing.  Two names address the same entity iff their keys are equal,
mirroring `strcasecmp(a, b) == 0`. -/
def ciKey (s : String) : List Nat :=
  s.data.map (fun c => asciiLower c.toNat)

/-- Lexicographic strict order on byte sequences, mirroring the sign of
`strcasecmp` applied to the case-folded names. -/
def lexLt : List Nat → List Nat → Bool
  | [], [] => false
  | [], _ :: _ => true
  | _ :: _, [] => false
  | a :: as, b :: bs => a < b || (a == b && lexLt as bs)

/-- A datum value attached to an attribute (`sdb_data_t`).  Only the
variants exercised by the store tests are listed; the store copies values
opaquely. -/
inductive SDBData where
  | Null : SDBData
  | Integer (i : Int) : SDBData
  | Str (s : String) : SDBData
  | Datetime (t : Nat) : SDBData
  deriving DecidableEq, Repr

/-- Attribute entity: key/value pair with update metadata. -/
structure Attr where
  name : String
  value : SDBData
  last_update : Nat
  interval : Nat
  deriving DecidableEq, Repr

/-- Service entity: child of a host. -/
structure Service where
  name : String
  last_update : Nat
  interval : Nat
  attributes : List Attr
  deriving DecidableEq, Repr

/-- Metric entity: child of a host, with an optional timeseries store
reference `(type, id)`. -/
structure Metric where
  name : String
  last_update : Nat
  interval : Nat
  store_ref : Option (String × String)
  attributes : List Attr
  deriving DecidableEq, Repr

/-- Host entity: root of the per-host subtree. -/
structure Host where
  name : String
  last_update : Nat
  interval : Nat
  attributes : List Attr
  services : List Service
  metrics : List Metric
  deriving DecidableEq, Repr

/-- The store: the host list, kept in ascending case-insensitive name
order. -/
def Store := List Host
  deriving DecidableEq

instance : Inhabited Store := ⟨([] : List Host)⟩

/-- Replace the first element satisfying `p` by its image under `f`,
mirroring an in-place update of the single matching list node. -/
def updateFirst (p : α → Bool) (f : α → α) : List α → List α
  | [] => []
  | x :: xs => if p x then f x :: xs else x :: updateFirst p f xs

/-- Insert `x` into a list kept sorted by `key` (ascending), mirroring the
sorted insert of the linked-list implementation. -/
def insertByKey (key : α → List Nat) (x : α) : List α → List α
  | [] => [x]
  | y :: ys => if lexLt (key x) (key y) then x :: y :: ys else y :: insertByKey key x ys

/-- Modelled from the spec: the interval update of the update-merge
algorithm (the store implementation is not part of this excerpt).  On an
update with a strictly newer timestamp the sampled spacing is `new − old`;
a zero previous interval is replaced by the sample, otherwise the
exponential average `0.9·interval + 0.1·sample` is taken, truncated to an
integer (the rule reconciled with `test_interval` of
`t/unit/core/store_test.c`, §8 S3). -/
def updInterval (interval old new : Nat) : Nat :=
  if interval = 0 then new - old else (9 * interval + (new - old)) / 10

/-- Predicate matching a host by case-insensitive name. -/
def hostPred (name : String) : Host → Bool :=
  fun h => ciKey h.name == ciKey name

/-- Predicate matching a service by case-insensitive name. -/
def svcPred (name : String) : Service → Bool :=
  fun sv => ciKey sv.name == ciKey name

/-- Predicate matching a metric by case-insensitive name. -/
def mtrPred (name : String) : Metric → Bool :=
  fun m => ciKey m.name == ciKey name

/-- Predicate matching an attribute by case-insensitive key. -/
def attrPred (name : String) : Attr → Bool :=
  fun a => ciKey a.name == ciKey name

/-- A freshly created host: `last_update = ts`, `interval = 0`, no
children. -/
def newHost (name : String) (ts : Nat) : Host :=
  ⟨name, ts, 0, [], [], []⟩

/-- A freshly created service. -/
def newService (name : String) (ts : Nat) : Service :=
  ⟨name, ts, 0, []⟩

/-- A freshly created metric with its optional store reference. -/
def newMetric (name : String) (ref : Option (String × String)) (ts : Nat) : Metric :=
  ⟨name, ts, 0, ref, []⟩

/-- A freshly created attribute. -/
def newAttr (name : String) (v : SDBData) (ts : Nat) : Attr :=
  ⟨name, v, ts, 0⟩

/-- Merge a newer update into an existing host. -/
def hostMerge (ts : Nat) (h : Host) : Host :=
  { h with last_update := ts, interval := updInterval h.interval h.last_update ts }

/-- Merge a newer update into an existing service. -/
def svcMerge (ts : Nat) (sv : Service) : Service :=
  { sv with last_update := ts, interval := updInterval sv.interval sv.last_update ts }

/-- Merge a newer update into an existing metric; a provided store
reference overwrites the stored one. -/
def mtrMerge (ref : Option (String × String)) (ts : Nat) (m : Metric) : Metric :=
  { m with last_update := ts, interval := updInterval m.interval m.last_update ts,
           store_ref := match ref with | some r => some r | none => m.store_ref }

/-- Merge a newer update into an existing attribute, refreshing its
value. -/
def attrMerge (v : SDBData) (ts : Nat) (a : Attr) : Attr :=
  { a with value := v, last_update := ts, interval := updInterval a.interval a.last_update ts }

/-- Modelled from the spec: `sdb_store_host` (the store implementation is
not part of this excerpt).  Resolve or create the host by case-insensitive
name; on creation return 0, on a strictly newer timestamp merge and return
0, otherwise leave everything unchanged and return 1. -/
def sdb_store_host (name : String) (ts : Nat) (s : Store) : Int × Store :=
  match (s : List Host).find? (hostPred name) with
  | none => (0, insertByKey (fun h => ciKey h.name) (newHost name ts) s)
  | some h =>
    if h.last_update < ts then
      (0, (updateFirst (hostPred name) (hostMerge ts) s : List Host))
    else (1, s)

/-- Modelled from the spec: `sdb_store_has_host`. -/
def sdb_store_has_host (name : String) (s : Store) : Bool :=
  ((s : List Host).find? (hostPred name)).isSome

/-- Modelled from the spec: `sdb_store_get_host` (sans reference
counting). -/
def sdb_store_get_host (name : String) (s : Store) : Option Host :=
  (s : List Host).find? (hostPred name)

/-- Modelled from the spec: `sdb_store_service`.  Requires an existing
host (no auto-creation); resolves or creates the service inside it and
applies the update-merge rule. -/
def sdb_store_service (hostn svcn : String) (ts : Nat) (s : Store) : Int × Store :=
  match (s : List Host).find? (hostPred hostn) with
  | none => (-1, s)
  | some h =>
    match h.services.find? (svcPred svcn) with
    | none =>
      (0, (updateFirst (hostPred hostn)
            (fun g => { g with services := insertByKey (fun sv => ciKey sv.name) (newService svcn ts) g.services })
            s : List Host))
    | some sv =>
      if sv.last_update < ts then
        (0, (updateFirst (hostPred hostn)
              (fun g => { g with services := updateFirst (svcPred svcn) (svcMerge ts) g.services })
              s : List Host))
      else (1, s)

/-- Modelled from the spec: `sdb_store_metric`.  Requires an existing
host; the optional store reference overwrites the stored one on a
successful newer update. -/
def sdb_store_metric (hostn mtrn : String) (ref : Option (String × String)) (ts : Nat)
    (s : Store) : Int × Store :=
  match (s : List Host).find? (hostPred hostn) with
  | none => (-1, s)
  | some h =>
    match h.metrics.find? (mtrPred mtrn) with
    | none =>
      (0, (updateFirst (hostPred hostn)
            (fun g => { g with metrics := insertByKey (fun m => ciKey m.name) (newMetric mtrn ref ts) g.metrics })
            s : List Host))
    | some m =>
      if m.last_update < ts then
        (0, (updateFirst (hostPred hostn)
              (fun g => { g with metrics := updateFirst (mtrPred mtrn) (mtrMerge ref ts) g.metrics })
              s : List Host))
      else (1, s)

/-- Modelled from the spec: `sdb_store_attribute` (host attribute).
Requires an existing host; the value is refreshed on a newer update. -/
def sdb_store_attribute (hostn key : String) (v : SDBData) (ts : Nat) (s : Store) : Int × Store :=
  match (s : List Host).find? (hostPred hostn) with
  | none => (-1, s)
  | some h =>
    match h.attributes.find? (attrPred key) with
    | none =>
      (0, (updateFirst (hostPred hostn)
            (fun g => { g with attributes := insertByKey (fun a => ciKey a.name) (newAttr key v ts) g.attributes })
            s : List Host))
    | some a =>
      if a.last_update < ts then
        (0, (updateFirst (hostPred hostn)
              (fun g => { g with attributes := updateFirst (attrPred key) (attrMerge v ts) g.attributes })
              s : List Host))
      else (1, s)

/-- Modelled from the spec: `sdb_store_service_attr`.  Requires both the
host and the parent service to exist. -/
def sdb_store_service_attr (hostn svcn key : String) (v : SDBData) (ts : Nat)
    (s : Store) : Int × Store :=
  match (s : List Host).find? (hostPred hostn) with
  | none => (-1, s)
  | some h =>
    match h.services.find? (svcPred svcn) with
    | none => (-1, s)
    | some sv =>
      match sv.attributes.find? (attrPred key) with
      | none =>
        (0, (updateFirst (hostPred hostn)
              (fun g => { g with services := updateFirst (svcPred svcn) (fun w => { w with attributes := insertByKey (fun a => ciKey a.name) (newAttr key v ts) w.attributes }) g.services })
              s : List Host))
      | some a =>
        if a.last_update < ts then
          (0, (updateFirst (hostPred hostn)
                (fun g => { g with services := updateFirst (svcPred svcn) (fun w => { w with attributes := updateFirst (attrPred key) (attrMerge v ts) w.attributes }) g.services })
                s : List Host))
        else (1, s)

/-- Modelled from the spec: `sdb_store_metric_attr`.  Requires both the
host and the parent metric to exist. -/
def sdb_store_metric_attr (hostn mtrn key : String) (v : SDBData) (ts : Nat)
    (s : Store) : Int × Store :=
  match (s : List Host).find? (hostPred hostn) with
  | none => (-1, s)
  | some h =>
    match h.metrics.find? (mtrPred mtrn) with
    | none => (-1, s)
    | some m =>
      match m.attributes.find? (attrPred key) with
      | none =>
        (0, (updateFirst (hostPred hostn)
              (fun g => { g with metrics := updateFirst (mtrPred mtrn) (fun w => { w with attributes := insertByKey (fun a => ciKey a.name) (newAttr key v ts) w.attributes }) g.metrics })
              s : List Host))
      | some a =>
        if a.last_update < ts then
          (0, (updateFirst (hostPred hostn)
                (fun g => { g with metrics := updateFirst (mtrPred mtrn) (fun w => { w with attributes := updateFirst (attrPred key) (attrMerge v ts) w.attributes }) g.metrics })
                s : List Host))
        else (1, s)

/-- Modelled from the spec: `sdb_store_iterate`.  Returns −1 on an empty
store; otherwise walks the hosts in list order, threading the caller
context through the callback and aborting with −1 as soon as a callback
invocation returns non-zero. -/
def iterHosts (cb : Host → γ → Int × γ) : List Host → γ → Int × γ
  | [], ctx => (0, ctx)
  | h :: t, ctx =>
    let r := cb h ctx
    if r.1 ≠ 0 then (-1, r.2) else iterHosts cb t r.2

/-- Modelled from the spec: `sdb_store_iterate`, see `iterHosts`. -/
def sdb_store_iterate (cb : Host → γ → Int × γ) (ctx : γ) (s : Store) : Int × γ :=
  match (s : List Host) with
  | [] => (-1, ctx)
  | _ => iterHosts cb s ctx

/-- One store mutation, used to describe call sequences. -/
inductive StoreOp where
  | host (name : String) (ts : Nat)
  | service (hostn name : String) (ts : Nat)
  | metric (hostn name : String) (ref : Option (String × String)) (ts : Nat)
  | attr (hostn key : String) (v : SDBData) (ts : Nat)
  | serviceAttr (hostn svcn key : String) (v : SDBData) (ts : Nat)
  | metricAttr (hostn mtrn key : String) (v : SDBData) (ts : Nat)
  deriving DecidableEq, Repr

/-- Apply one store mutation, returning the status code and the new
store. -/
def applyOp : StoreOp → Store → Int × Store
  | .host n ts, s => sdb_store_host n ts s
  | .service hn n ts, s => sdb_store_service hn n ts s
  | .metric hn n ref ts, s => sdb_store_metric hn n ref ts s
  | .attr hn k v ts, s => sdb_store_attribute hn k v ts s
  | .serviceAttr hn sn k v ts, s => sdb_store_service_attr hn sn k v ts s
  | .metricAttr hn mn k v ts, s => sdb_store_metric_attr hn mn k v ts s

/-- Apply a sequence of store mutations, discarding the status codes. -/
def applyOps : List StoreOp → Store → Store
  | [], s => s
  | op :: ops, s => applyOps ops (applyOp op s).2

/-- Run a sequence of `sdb_store_host` calls, collecting the return
codes. -/
def runHostCalls : List (String × Nat) → Store → List Int × Store
  | [], s => ([], s)
  | (n, t) :: rest, s =>
    let r := sdb_store_host n t s
    let rec' := runHostCalls rest r.2
    (r.1 :: rec'.1, rec'.2)

/-- The return codes the claim predicts for a run of `sdb_store_host`
calls on one (case-insensitive) name: 0 on the creating first call and
whenever the timestamp strictly exceeds the running maximum, 1 otherwise;
the state is the running maximum. -/
def hostCodes : Option Nat → List Nat → List Int
  | _, [] => []
  | none, t :: ts => 0 :: hostCodes (some t) ts
  | some m, t :: ts => (if m < t then 0 else 1) :: hostCodes (some (max m t)) ts

/-- Maximum of a timestamp list (0 for the empty list). -/
def maxOf : List Nat → Nat
  | [] => 0
  | t :: ts => ts.foldl max t

/-- Interval of a stored host, if present. -/
def getHostInterval (name : String) (s : Store) : Option Nat :=
  ((s : List Host).find? (hostPred name)).map (fun h => h.interval)

/-- Last update of a stored host, if present. -/
def getHostLastUpdate (name : String) (s : Store) : Option Nat :=
  ((s : List Host).find? (hostPred name)).map (fun h => h.last_update)

/-- A stored service, if present. -/
def getService (hostn svcn : String) (s : Store) : Option Service :=
  ((s : List Host).find? (hostPred hostn)).bind (fun h => h.services.find? (svcPred svcn))

/-! ### Frontend: wire codes and the query pipeline of `src/frontend/query.c` -/

/-- Connection/frame code `CONNECTION_IDLE` (spec §4.2). -/
def SDB_CONNECTION_IDLE : Int := 0

/-- Connection/frame code `CONNECTION_PING`. -/
def SDB_CONNECTION_PING : Int := 1

/-- Connection/frame code `CONNECTION_OK`. -/
def SDB_CONNECTION_OK : Int := 2

/-- Connection/frame code `CONNECTION_ERROR`. -/
def SDB_CONNECTION_ERROR : Int := 3

/-- Connection/frame code `CONNECTION_LOG`. -/
def SDB_CONNECTION_LOG : Int := 4

/-- Connection/frame code `CONNECTION_DATA`. -/
def SDB_CONNECTION_DATA : Int := 5

/-- Connection/frame code `CONNECTION_STARTUP`. -/
def SDB_CONNECTION_STARTUP : Int := 6

/-- Connection/frame code `CONNECTION_QUERY`. -/
def SDB_CONNECTION_QUERY : Int := 7

/-- Object type constant `SDB_HOST` (spec §6, stable bits). -/
def SDB_HOST : Nat := 1

/-- Object type constant `SDB_SERVICE`. -/
def SDB_SERVICE : Nat := 2

/-- Object type constant `SDB_METRIC`. -/
def SDB_METRIC : Nat := 4

/-- Object type constant `SDB_ATTRIBUTE` (0x10; composes with a parent
type by addition of the disjoint bits). -/
def SDB_ATTRIBUTE : Nat := 16

/-- Syslog-style log priority `SDB_LOG_ERR` used by `sdb_log`. -/
def SDB_LOG_ERR : Nat := 3

/-- Syslog-style log priority `SDB_LOG_WARNING` used by `sdb_log`. -/
def SDB_LOG_WARNING : Nat := 4

/-- The fields of an `sdb_ast_store_t` node. -/
structure AstStore where
  obj_type : Nat
  hostname : Option String
  parent_type : Nat
  parent : Option String
  name : String
  last_update : Nat
  store_type : Option String
  store_id : Option String
  value : SDBData
  deriving DecidableEq, Repr

/-- An AST statement as seen by `sdb_conn_query`: either a STORE node or
any other statement (LIST/FETCH/LOOKUP/TIMESERIES), which is handed to
`sdb_plugin_query`. -/
inductive AstNode where
  | store (st : AstStore)
  | other (tag : Nat)
  deriving DecidableEq, Repr

/-- One call into the store plugin interface, identifying which
`sdb_plugin_store_*` function `exec_store` dispatches to and with which
arguments. -/
inductive StoreCall where
  | host (name : String) (lu : Nat)
  | service (hostname name : String) (lu : Nat)
  | metric (hostname name : String) (store_type store_id : Option String) (lu : Nat)
  | attr (hostname key : String) (v : SDBData) (lu : Nat)
  | serviceAttr (hostname svc key : String) (v : SDBData) (lu : Nat)
  | metricAttr (hostname mtr key : String) (v : SDBData) (lu : Nat)
  deriving DecidableEq, Repr

/-- An observable effect of the frontend: a reply frame written with
`sdb_connection_send`, a server log line written with `sdb_log` (per spec
§4.6/§7 log diagnostics are also surfaced to the client as `LOG` frames),
a `sdb_plugin_query` invocation, or a `sdb_plugin_store_*` invocation. -/
inductive Event where
  | send (code : Int) (payload : String)
  | log (prio : Nat) (msg : String)
  | pluginQuery (ast : AstNode)
  | pluginStore (c : StoreCall)
  | dispatch (cmd : Int) (payload : String)
  deriving DecidableEq, Repr

/-- The external collaborators of the query pipeline: the query plugin
(returning a status/frame code, its rendered output and any diagnostic)
and the store plugin interface (returning a status code). -/
structure QueryEnv where
  plugin : AstNode → Int × String × String
  storeFn : StoreCall → Int

/-- Result of an executor: its return status, the reply buffer, the
connection error buffer and the trace of external effects. -/
structure ExecResult where
  status : Int
  buf : String
  errbuf : String
  events : List Event
  deriving DecidableEq, Repr

/-- Modelled from the spec: `SDB_STORE_TYPE_TO_NAME` of `core/store.h`
(the header is not part of this excerpt); maps the composed object type
bits to the kind name used in `exec_store` messages. -/
def typeToName (t : Nat) : String :=
  if t = SDB_HOST then "host"
  else if t = SDB_SERVICE then "service"
  else if t = SDB_METRIC then "metric"
  else if t = SDB_ATTRIBUTE then "attribute"
  else if t = SDB_ATTRIBUTE + SDB_HOST then "host attribute"
  else if t = SDB_ATTRIBUTE + SDB_SERVICE then "service attribute"
  else if t = SDB_ATTRIBUTE + SDB_METRIC then "metric attribute"
  else "unknown"

/-- ASCII upper-casing of one character, mirroring C `toupper`. -/
def asciiUpper (c : Char) : Char :=
  if 97 ≤ c.toNat ∧ c.toNat ≤ 122 then Char.ofNat (c.toNat - 32) else c

/-- Upper-case the first character of a string, as `exec_store` does for
the "already up to date" message. -/
def capitalize1 (s : String) : String :=
  match s.data with
  | [] => ""
  | c :: cs => String.mk (asciiUpper c :: cs)

/-- The dispatch of `exec_store` (src/frontend/query.c:69-125): the
composed type bits, the qualified name written into `name[]`, and the
`sdb_plugin_store_*` call made; `none` with a log message for an invalid
object or parent type. -/
def execStoreDispatch (st : AstStore) : Except String (Nat × String × StoreCall) :=
  let hn := st.hostname.getD ""
  if st.obj_type = SDB_HOST then
    .ok (SDB_HOST, st.name, .host st.name st.last_update)
  else if st.obj_type = SDB_SERVICE then
    .ok (SDB_SERVICE, hn ++ "." ++ st.name, .service hn st.name st.last_update)
  else if st.obj_type = SDB_METRIC then
    .ok (SDB_METRIC, hn ++ "." ++ st.name, .metric hn st.name st.store_type st.store_id st.last_update)
  else if st.obj_type = SDB_ATTRIBUTE then
    let qname := match st.parent with
      | some p => hn ++ "." ++ p ++ "." ++ st.name
      | none => hn ++ "." ++ st.name
    if st.parent_type = 0 then
      .ok (SDB_ATTRIBUTE + SDB_HOST, qname, .attr hn st.name st.value st.last_update)
    else if st.parent_type = SDB_SERVICE then
      .ok (SDB_ATTRIBUTE + SDB_SERVICE, qname, .serviceAttr hn (st.parent.getD "") st.name st.value st.last_update)
    else if st.parent_type = SDB_METRIC then
      .ok (SDB_ATTRIBUTE + SDB_METRIC, qname, .metricAttr hn (st.parent.getD "") st.name st.value st.last_update)
    else
      .error ("store: Invalid parent type in STORE: " ++ typeToName st.parent_type)
  else
    .error ("store: Invalid object type in STORE: " ++ typeToName st.obj_type)

/-- Translation of `exec_store` (src/frontend/query.c:62-145): dispatch on
`obj_type` to the matching `sdb_plugin_store_*` call; on a negative store
status write a diagnostic to the error buffer and return −1; otherwise
write the success message ("Successfully stored ..." for status 0, "...
already up to date" with the kind capitalized for a non-zero status) and
return `SDB_CONNECTION_OK`. -/
def exec_store (env : QueryEnv) (st : AstStore) : ExecResult :=
  match execStoreDispatch st with
  | .error msg => { status := -1, buf := "", errbuf := "", events := [Event.log SDB_LOG_ERR msg] }
  | .ok (ty, qname, call) =>
    let status := env.storeFn call
    if status < 0 then
      { status := -1, buf := "",
        errbuf := "STORE: Failed to store " ++ typeToName ty ++ " object",
        events := [Event.pluginStore call] }
    else if status = 0 then
      { status := SDB_CONNECTION_OK,
        buf := "Successfully stored " ++ typeToName ty ++ " " ++ qname,
        errbuf := "", events := [Event.pluginStore call] }
    else
      { status := SDB_CONNECTION_OK,
        buf := capitalize1 (typeToName ty) ++ " " ++ qname ++ " already up to date",
        errbuf := "", events := [Event.pluginStore call] }

/-- Translation of `exec_query` (src/frontend/query.c:147-179): a missing
AST reports "out of memory"; a STORE node goes to `exec_store`, everything
else to `sdb_plugin_query`; a negative status logs the failed query text,
a non-negative status is sent as the reply frame code with the rendered
buffer, and the function returns the negative status or 0. -/
def exec_query (env : QueryEnv) (q : String) (ast : Option AstNode) : Int × String × List Event :=
  match ast with
  | none => (-1, "out of memory", [])
  | some a =>
    let r : Int × String × String × List Event :=
      match a with
      | .store st =>
        let r := exec_store env st
        (r.status, r.buf, r.errbuf, r.events)
      | .other _ =>
        let p := env.plugin a
        (p.1, p.2.1, p.2.2, [Event.pluginQuery a])
    if r.1 < 0 then
      (r.1, r.2.2.1, r.2.2.2 ++ [Event.log SDB_LOG_ERR ("frontend: failed to execute query \x27" ++ q ++ "\x27")])
    else
      (0, r.2.2.1, r.2.2.2 ++ [Event.send r.1 r.2.1])

/-- The multi-statement warning text of `sdb_conn_query`
(src/frontend/query.c:220-224). -/
def ignoredMsg (ignored : Nat) (total : Nat) (q : String) : String :=
  "frontend: Ignoring " ++ toString ignored ++ " command" ++ (if total = 2 then "" else "s")
    ++ " in multi-statement query \x27" ++ q ++ "\x27"

/-- Translation of `sdb_conn_query` (src/frontend/query.c:185-235): reject
a non-QUERY command; on a parser failure log the query and return −1; an
empty parse tree sends one empty `DATA` frame; exactly one statement is
executed; with more than one statement a warning naming the number of
ignored commands is logged and only the first statement is executed. -/
def sdb_conn_query (env : QueryEnv) (cmd : Int) (q : String)
    (parsed : Except String (List AstNode)) : Int × String × List Event :=
  if cmd ≠ SDB_CONNECTION_QUERY then (-1, "", [])
  else match parsed with
  | .error diag =>
    (-1, diag, [Event.log SDB_LOG_ERR ("frontend: Failed to parse query \x27" ++ q ++ "\x27: " ++ diag)])
  | .ok stmts =>
    match stmts with
    | [] => (0, "", [Event.send SDB_CONNECTION_DATA ""])
    | [a] => exec_query env q (some a)
    | a :: _ :: _ =>
      let warn := Event.log SDB_LOG_WARNING (ignoredMsg (stmts.length - 1) stmts.length q)
      let r := exec_query env q (some a)
      (r.1, r.2.1, warn :: r.2.2)

/-! ### Connection state machine (modelled; `frontend/connection.c` is not
part of this excerpt) -/

/-- The per-connection state relevant to the handshake: the recorded
username (none until a `STARTUP` frame was accepted) and the error
buffer. -/
structure Conn where
  username : Option String
  errbuf : String
  deriving DecidableEq, Repr

/-- Modelled from the spec: the command dispatch of
`frontend/connection.c` (not part of this excerpt), reconciled with
`t/unit/frontend/connection_test.c`.  `IDLE` frames are skipped without
touching the connection.  Any other command clears the error buffer and,
while no username is recorded, every command except `STARTUP` is rejected
with the diagnostic "Authentication required" and leaves the state
unchanged.  `STARTUP` records the payload as username and replies `OK`;
once authenticated, `PING` replies `OK` with an empty payload and other
commands go to their executors. -/
def connCommand (c : Conn) (cmd : Int) (payload : String) : Conn × List Event :=
  if cmd = SDB_CONNECTION_IDLE then (c, [])
  else
    let c0 : Conn := { c with errbuf := "" }
    if c0.username = none ∧ cmd ≠ SDB_CONNECTION_STARTUP then
      ({ c0 with errbuf := "Authentication required" }, [])
    else if cmd = SDB_CONNECTION_STARTUP then
      ({ c0 with username := some payload }, [Event.send SDB_CONNECTION_OK ""])
    else if cmd = SDB_CONNECTION_PING then
      (c0, [Event.send SDB_CONNECTION_OK ""])
    else
      (c0, [Event.dispatch cmd payload])

/-! ### List-level lemmas about `updateFirst`, `insertByKey` and `lexLt` -/

theorem find?_updateFirst {p : α → Bool} {f : α → α}
    (hf : ∀ x, p x = true → p (f x) = true) :
    ∀ l : List α, (updateFirst p f l).find? p = (l.find? p).map f := by
  intro l
  induction l with
  | nil => simp [updateFirst]
  | cons x xs ih =>
    by_cases hx : p x = true
    · simp [updateFirst, hx, List.find?_cons_of_pos, hf x hx]
    · have hx' : p x = false := by simpa using hx
      simp [updateFirst, hx', List.find?_cons_of_neg, ih]

theorem find?_insertByKey_none {p : α → Bool} {key : α → List Nat} {x : α} :
    ∀ l : List α, l.find? p = none →
      (insertByKey key x l).find? p = if p x then some x else none := by
  intro l
  induction l with
  | nil =>
    intro _
    by_cases hx : p x = true <;> simp [insertByKey, hx]
  | cons y ys ih =>
    intro hnone
    rw [List.find?_cons] at hnone
    cases hy : p y with
    | true => simp [hy] at hnone
    | false =>
      simp only [hy] at hnone
      by_cases hlt : lexLt (key x) (key y) = true
      · by_cases hx : p x = true <;> simp [insertByKey, hlt, hx, hy, hnone]
      · have hlt' : lexLt (key x) (key y) = false := by simpa using hlt
        simp [insertByKey, hlt', hy, ih hnone]

theorem mem_insertByKey {key : α → List Nat} {x y : α} :
    ∀ l : List α, y ∈ insertByKey key x l ↔ y = x ∨ y ∈ l := by
  intro l
  induction l with
  | nil => simp [insertByKey]
  | cons z zs ih =>
    by_cases hlt : lexLt (key x) (key z) = true
    · simp [insertByKey, hlt]
    · have hlt' : lexLt (key x) (key z) = false := by simpa using hlt
      simp [insertByKey, hlt', ih]
      tauto

theorem exists_of_mem_updateFirst {p : α → Bool} {f : α → α} {y : α} :
    ∀ l : List α, y ∈ updateFirst p f l → ∃ z ∈ l, y = z ∨ y = f z := by
  intro l
  induction l with
  | nil => simp [updateFirst]
  | cons x xs ih =>
    by_cases hx : p x = true
    · simp only [updateFirst, hx, if_pos, List.mem_cons]
      rintro (rfl | hy)
      · exact ⟨x, Or.inl rfl, Or.inr rfl⟩
      · exact ⟨y, Or.inr hy, Or.inl rfl⟩
    · simp only [updateFirst, hx, if_neg, List.mem_cons, Bool.not_eq_true]
      rintro (rfl | hy)
      · exact ⟨y, Or.inl rfl, Or.inl rfl⟩
      · obtain ⟨z, hz, hyz⟩ := ih hy
        exact ⟨z, Or.inr hz, hyz⟩

theorem lexLt_cons_iff {a b : Nat} {as bs : List Nat} :
    lexLt (a :: as) (b :: bs) = true ↔ a < b ∨ (a = b ∧ lexLt as bs = true) := by
  simp [lexLt, Bool.or_eq_true, Bool.and_eq_true, decide_eq_true_iff, beq_iff_eq]

theorem lexLt_trans : ∀ a b c : List Nat,
    lexLt a b = true → lexLt b c = true → lexLt a c = true := by
  intro a
  induction a with
  | nil =>
    intro b c hab hbc
    cases b with
    | nil => simp [lexLt] at hab
    | cons x xs =>
      cases c with
      | nil => simp [lexLt] at hbc
      | cons y ys => simp [lexLt]
  | cons x xs ih =>
    intro b c hab hbc
    cases b with
    | nil => simp [lexLt] at hab
    | cons y ys =>
      cases c with
      | nil => simp [lexLt] at hbc
      | cons z zs =>
        rw [lexLt_cons_iff] at hab hbc ⊢
        rcases hab with h1 | ⟨rfl, h1⟩
        · rcases hbc with h2 | ⟨rfl, h2⟩
          · exact Or.inl (Nat.lt_trans h1 h2)
          · exact Or.inl h1
        · rcases hbc with h2 | ⟨rfl, h2⟩
          · exact Or.inl h2
          · exact Or.inr ⟨rfl, ih ys zs h1 h2⟩

theorem eq_of_not_lexLt : ∀ a b : List Nat,
    lexLt a b = false → lexLt b a = false → a = b := by
  intro a
  induction a with
  | nil =>
    intro b hab _
    cases b with
    | nil => rfl
    | cons y ys => simp [lexLt] at hab
  | cons x xs ih =>
    intro b hab hba
    cases b with
    | nil => simp [lexLt] at hba
    | cons y ys =>
      have hab' : ¬ (x < y ∨ (x = y ∧ lexLt xs ys = true)) := by
        rw [← lexLt_cons_iff]; simp [hab]
      have hba' : ¬ (y < x ∨ (y = x ∧ lexLt ys xs = true)) := by
        rw [← lexLt_cons_iff]; simp [hba]
      push_neg at hab' hba'
      have hxy : x = y := Nat.le_antisymm hba'.1 hab'.1
      subst hxy
      have h1 : lexLt xs ys = false := by simpa using hab'.2 rfl
      have h2 : lexLt ys xs = false := by simpa using hba'.2 rfl
      rw [ih ys h1 h2]

theorem lexLt_of_ne_of_not_lexLt {a b : List Nat}
    (hne : a ≠ b) (h : lexLt a b = false) : lexLt b a = true := by
  cases hba : lexLt b a with
  | true => rfl
  | false => exact absurd (eq_of_not_lexLt a b h hba) hne

theorem pairwise_insertByKey (key : α → List Nat) {x : α} :
    ∀ l : List α,
      List.Pairwise (fun a b => lexLt (key a) (key b) = true) l →
      (∀ y ∈ l, key x ≠ key y) →
      List.Pairwise (fun a b => lexLt (key a) (key b) = true) (insertByKey key x l) := by
  intro l
  induction l with
  | nil => intro _ _; simp [insertByKey]
  | cons y ys ih =>
    intro hp hfresh
    rcases List.pairwise_cons.mp hp with ⟨hy, hys⟩
    by_cases hlt : lexLt (key x) (key y) = true
    · simp only [insertByKey, hlt, if_pos]
      refine List.pairwise_cons.mpr ⟨?_, hp⟩
      intro z hz
      rcases List.mem_cons.mp hz with rfl | hz'
      · exact hlt
      · exact lexLt_trans _ _ _ hlt (hy z hz')
    · have hlt' : lexLt (key x) (key y) = false := by simpa using hlt
      have hyx : lexLt (key y) (key x) = true :=
        lexLt_of_ne_of_not_lexLt (hfresh y (List.mem_cons_self y ys)) hlt'
      simp only [insertByKey, hlt', Bool.false_eq_true, if_neg, not_false_iff]
      refine List.pairwise_cons.mpr ⟨?_, ih hys (fun z hz => hfresh z (List.mem_cons_of_mem y hz))⟩
      intro z hz
      rcases (mem_insertByKey _).mp hz with rfl | hz'
      · exact hyx
      · exact hy z hz'

theorem pairwise_updateFirst (key : α → List Nat) {p : α → Bool} {f : α → α}
    (hf : ∀ z, key (f z) = key z) :
    ∀ l : List α,
      List.Pairwise (fun a b => lexLt (key a) (key b) = true) l →
      List.Pairwise (fun a b => lexLt (key a) (key b) = true) (updateFirst p f l) := by
  intro l
  induction l with
  | nil => intro _; simp [updateFirst]
  | cons x xs ih =>
    intro hp
    rcases List.pairwise_cons.mp hp with ⟨hx, hxs⟩
    by_cases hpx : p x = true
    · simp only [updateFirst, hpx, if_pos]
      exact List.pairwise_cons.mpr ⟨fun z hz => by rw [hf x]; exact hx z hz, hxs⟩
    · simp only [updateFirst, hpx, if_neg, Bool.not_eq_true]
      refine List.pairwise_cons.mpr ⟨?_, ih hxs⟩
      intro z hz
      obtain ⟨w, hw, hzw⟩ := exists_of_mem_updateFirst _ hz
      rcases hzw with rfl | rfl
      · exact hx z hw
      · rw [hf w]; exact hx w hw

/-! ### Store-level lemmas -/

theorem hostPred_congr {m n : String} (h : ciKey m = ciKey n) : hostPred m = hostPred n := by
  funext x
  simp [hostPred, h]

theorem hostPred_newHost {m n : String} {ts : Nat} (h : ciKey m = ciKey n) :
    hostPred n (newHost m ts) = true := by
  simp [hostPred, newHost, h]

theorem hostPred_hostMerge {n : String} {ts : Nat} (h : Host) :
    hostPred n (hostMerge ts h) = hostPred n h := by
  simp [hostPred, hostMerge]

theorem hostMerge_last_update {ts : Nat} (h : Host) :
    (hostMerge ts h).last_update = ts := rfl

/-- Invariant driving the host-sequence claim: once the host exists with
`last_update = m`, a run of `sdb_store_host` calls on (case-insensitive)
the same name produces the predicted codes with running maximum `m`, and
the stored `last_update` ends at the maximum of `m` and all
timestamps. -/
theorem runHostCalls_found :
    ∀ (calls : List (String × Nat)) (n : String) (s : Store) (h : Host),
      (∀ p ∈ calls, ciKey p.1 = ciKey n) →
      (s : List Host).find? (hostPred n) = some h →
      (runHostCalls calls s).1 = hostCodes (some h.last_update) (calls.map Prod.snd) ∧
      ∃ h', ((runHostCalls calls s).2 : List Host).find? (hostPred n) = some h' ∧
        h'.last_update = List.foldl max h.last_update (calls.map Prod.snd) := by
  intro calls
  induction calls with
  | nil =>
    intro n s h _ hfind
    exact ⟨rfl, h, hfind, rfl⟩
  | cons c rest ih =>
    intro n s h hnames hfind
    obtain ⟨m, t⟩ := c
    have hk : ciKey m = ciKey n := hnames (m, t) (List.mem_cons_self _ _)
    have hrest : ∀ p ∈ rest, ciKey p.1 = ciKey n :=
      fun p hp => hnames p (List.mem_cons_of_mem _ hp)
    by_cases hlt : h.last_update < t
    · have hstep : sdb_store_host m t s =
          (0, (updateFirst (hostPred n) (hostMerge t) s : List Host)) := by
        rw [sdb_store_host, hostPred_congr hk, hfind]
        simp [hlt]
      have hfind' : ((updateFirst (hostPred n) (hostMerge t) s : List Host)).find? (hostPred n)
          = some (hostMerge t h) := by
        rw [find?_updateFirst (fun x hx => by rwa [hostPred_hostMerge]), hfind]
        rfl
      obtain ⟨hcodes, h', hh', hlu⟩ := ih n _ (hostMerge t h) hrest hfind'
      refine ⟨?_, h', ?_, ?_⟩
      · simp only [runHostCalls, hstep, hcodes, List.map_cons, hostCodes, hlt, if_pos]
        rw [hostMerge_last_update, Nat.max_eq_right (Nat.le_of_lt hlt)]
      · simpa [runHostCalls, hstep] using hh'
      · rw [hlu, hostMerge_last_update, List.map_cons, List.foldl_cons,
          Nat.max_eq_right (Nat.le_of_lt hlt)]
    · have hstep : sdb_store_host m t s = (1, s) := by
        rw [sdb_store_host, hostPred_congr hk, hfind]
        simp [hlt]
      obtain ⟨hcodes, h', hh', hlu⟩ := ih n s h hrest hfind
      refine ⟨?_, h', ?_, ?_⟩
      · simp only [runHostCalls, hstep, hcodes, List.map_cons, hostCodes, hlt, if_neg,
          not_false_iff]
        rw [Nat.max_eq_left (Nat.not_lt.mp hlt)]
      · simpa [runHostCalls, hstep] using hh'
      · rw [hlu, List.map_cons, List.foldl_cons, Nat.max_eq_left (Nat.not_lt.mp hlt)]

/-- Claim C1: for every sequence of `store_host(n, t_i)` calls on the same
case-insensitive name starting from a store without that host, the stored
`last_update` afterwards equals `max(t_i)`, and each call returns 0 when
it creates the host or its timestamp strictly exceeds the running maximum
and 1 otherwise (the codes predicted by `hostCodes`). -/
theorem store_host_sequence_spec (n : String) (calls : List (String × Nat)) (s : Store)
    (hnames : ∀ p ∈ calls, ciKey p.1 = ciKey n)
    (habsent : (s : List Host).find? (hostPred n) = none)
    (hne : calls ≠ []) :
    (runHostCalls calls s).1 = hostCodes none (calls.map Prod.snd) ∧
    ∃ h, ((runHostCalls calls s).2 : List Host).find? (hostPred n) = some h ∧
      h.last_update = maxOf (calls.map Prod.snd) := by
  match calls, hne with
  | (m, t) :: rest, _ =>
    have hk : ciKey m = ciKey n := hnames (m, t) (List.mem_cons_self _ _)
    have hrest : ∀ p ∈ rest, ciKey p.1 = ciKey n :=
      fun p hp => hnames p (List.mem_cons_of_mem _ hp)
    have hstep : sdb_store_host m t s =
        (0, insertByKey (fun h => ciKey h.name) (newHost m t) s) := by
      rw [sdb_store_host, hostPred_congr hk, habsent]
    have hfind' : ((insertByKey (fun h => ciKey h.name) (newHost m t) s : List Host)).find?
        (hostPred n) = some (newHost m t) := by
      rw [find?_insertByKey_none _ habsent, hostPred_newHost hk]
      simp
    obtain ⟨hcodes, h', hh', hlu⟩ :=
      runHostCalls_found rest n _ (newHost m t) hrest hfind'
    refine ⟨?_, h', ?_, ?_⟩
    · simp only [runHostCalls, hstep, hcodes, List.map_cons, hostCodes]
      rfl
    · simpa [runHostCalls, hstep] using hh'
    · rw [hlu]
      rfl

/-- Witness for `store_host_sequence_spec`: scenario S1 restricted to the
host addressed by "a"/"A" — codes `0,0,1,1,0` and final
`last_update = 4`. -/
theorem store_host_sequence_spec_witness :
    (runHostCalls [("a", 2), ("a", 3), ("a", 1), ("A", 1), ("A", 4)] ([] : Store)).1
        = [0, 0, 1, 1, 0] ∧
    ∃ h, ((runHostCalls [("a", 2), ("a", 3), ("a", 1), ("A", 1), ("A", 4)]
        ([] : Store)).2 : List Host).find? (hostPred "a") = some h ∧ h.last_update = 4 := by
  have h := store_host_sequence_spec "a" [("a", 2), ("a", 3), ("a", 1), ("A", 1), ("A", 4)]
    ([] : Store) (by decide) (by decide) (by decide)
  obtain ⟨hcodes, hh⟩ := h
  exact ⟨by rw [hcodes]; decide, by simpa using hh⟩

/-- Counterexample to claim C2 as stated: after `store_host("a",2);
store_host("a",3)`, the call `store_host("a",1)` carries a timestamp older
than the stored `last_update` yet returns 1 (not −1), and the refreshing
call `store_host("a",3)` on the existing host returns 0 (not 1). -/
theorem store_host_return_code_cex :
    (sdb_store_host "a" 1 ((sdb_store_host "a" 3 ((sdb_store_host "a" 2 ([] : Store)).2)).2)).1
        = 1 ∧ (1 : Int) ≠ -1 ∧
    (sdb_store_host "a" 3 ((sdb_store_host "a" 2 ([] : Store)).2)).1 = 0 ∧ (0 : Int) ≠ 1 := by
  refine ⟨by decide, by decide, by decide, by decide⟩

/-- Claim C2 (amended): `store_host(name, ts)` returns 0 when it creates
the host or refreshes an existing host with a strictly newer timestamp,
and returns 1 — leaving the store unchanged — when the host exists and
`ts` is not newer than the stored `last_update`; −1 is reserved for the
child-storing operations whose required parent is missing. -/
theorem store_host_return_code_spec (name : String) (ts : Nat) (s : Store) :
    ((s : List Host).find? (hostPred name) = none → (sdb_store_host name ts s).1 = 0) ∧
    (∀ h, (s : List Host).find? (hostPred name) = some h → h.last_update < ts →
      (sdb_store_host name ts s).1 = 0) ∧
    (∀ h, (s : List Host).find? (hostPred name) = some h → ts ≤ h.last_update →
      sdb_store_host name ts s = (1, s)) ∧
    (∀ svcn, (s : List Host).find? (hostPred name) = none →
      sdb_store_service name svcn ts s = (-1, s)) := by
  refine ⟨?_, ?_, ?_, ?_⟩
  · intro hnone
    rw [sdb_store_host, hnone]
  · intro h hfind hlt
    rw [sdb_store_host, hfind]
    simp [hlt]
  · intro h hfind hle
    rw [sdb_store_host, hfind]
    simp [Nat.not_lt.mpr hle]
  · intro svcn hnone
    rw [sdb_store_service, hnone]

/-- Witness for `store_host_return_code_spec` at concrete inputs. -/
theorem store_host_return_code_spec_witness :
    (sdb_store_host "b" 5 ([] : Store)).1 = 0 ∧
    (sdb_store_host "B" 7 ((sdb_store_host "b" 5 ([] : Store)).2)).1 = 0 ∧
    sdb_store_host "B" 5 ((sdb_store_host "b" 5 ([] : Store)).2)
      = (1, (sdb_store_host "b" 5 ([] : Store)).2) := by
  refine ⟨(store_host_return_code_spec "b" 5 ([] : Store)).1 (by decide), ?_, ?_⟩
  · exact (store_host_return_code_spec "B" 7 _).2.1 (newHost "b" 5) (by decide) (by decide)
  · exact (store_host_return_code_spec "B" 5 _).2.2.1 (newHost "b" 5) (by decide) (by decide)

/-- Claim C3: every child-storing operation whose required host — or
intermediate service/metric parent — is missing returns −1 and leaves the
store unchanged, so the identical call repeated still returns −1. -/
theorem store_missing_parent_spec (s : Store) (hostn name key : String)
    (ref : Option (String × String)) (v : SDBData) (ts : Nat) :
    ((s : List Host).find? (hostPred hostn) = none →
      sdb_store_service hostn name ts s = (-1, s) ∧
      sdb_store_metric hostn name ref ts s = (-1, s) ∧
      sdb_store_attribute hostn key v ts s = (-1, s) ∧
      sdb_store_service_attr hostn name key v ts s = (-1, s) ∧
      sdb_store_metric_attr hostn name key v ts s = (-1, s) ∧
      sdb_store_service hostn name ts ((sdb_store_service hostn name ts s).2) = (-1, s) ∧
      sdb_store_attribute hostn key v ts ((sdb_store_attribute hostn key v ts s).2) = (-1, s)) ∧
    (∀ h, (s : List Host).find? (hostPred hostn) = some h →
      h.services.find? (svcPred name) = none →
      sdb_store_service_attr hostn name key v ts s = (-1, s) ∧
      sdb_store_service_attr hostn name key v ts
        ((sdb_store_service_attr hostn name key v ts s).2) = (-1, s)) ∧
    (∀ h, (s : List Host).find? (hostPred hostn) = some h →
      h.metrics.find? (mtrPred name) = none →
      sdb_store_metric_attr hostn name key v ts s = (-1, s) ∧
      sdb_store_metric_attr hostn name key v ts
        ((sdb_store_metric_attr hostn name key v ts s).2) = (-1, s)) := by
  refine ⟨?_, ?_, ?_⟩
  · intro hnone
    have h1 : sdb_store_service hostn name ts s = (-1, s) := by
      rw [sdb_store_service, hnone]
    have h2 : sdb_store_metric hostn name ref ts s = (-1, s) := by
      rw [sdb_store_metric, hnone]
    have h3 : sdb_store_attribute hostn key v ts s = (-1, s) := by
      rw [sdb_store_attribute, hnone]
    have h4 : sdb_store_service_attr hostn name key v ts s = (-1, s) := by
      rw [sdb_store_service_attr, hnone]
    have h5 : sdb_store_metric_attr hostn name key v ts s = (-1, s) := by
      rw [sdb_store_metric_attr, hnone]
    exact ⟨h1, h2, h3, h4, h5, by rw [h1, h1], by rw [h3, h3]⟩
  · intro h hfind hsvc
    have h4 : sdb_store_service_attr hostn name key v ts s = (-1, s) := by
      rw [sdb_store_service_attr, hfind]
      simp only [hsvc]
    exact ⟨h4, by rw [h4, h4]⟩
  · intro h hfind hmtr
    have h5 : sdb_store_metric_attr hostn name key v ts s = (-1, s) := by
      rw [sdb_store_metric_attr, hfind]
      simp only [hmtr]
    exact ⟨h5, by rw [h5, h5]⟩

/-- Witness for `store_missing_parent_spec`: the missing-host scenario of
`test_store_attr` ("k" absent) and the missing-service scenario of
`test_store_service_attr` ("sX" absent on host "l"). -/
theorem store_missing_parent_spec_witness :
    sdb_store_attribute "k" "k" (.Str "v") 1 ((sdb_store_host "l" 1 ([] : Store)).2)
      = (-1, (sdb_store_host "l" 1 ([] : Store)).2) ∧
    sdb_store_service_attr "l" "sX" "a1" (.Integer 123) 1 ((sdb_store_host "l" 1 ([] : Store)).2)
      = (-1, (sdb_store_host "l" 1 ([] : Store)).2) := by
  constructor
  · exact (((store_missing_parent_spec ((sdb_store_host "l" 1 ([] : Store)).2) "k" "s" "k"
      none (.Str "v") 1).1 (by decide)).2.2.1)
  · exact ((store_missing_parent_spec ((sdb_store_host "l" 1 ([] : Store)).2) "l" "sX" "a1"
      none (.Integer 123) 1).2.1 (newHost "l" 1) (by decide) (by decide)).1

/-- A stored host attribute, if present. -/
def getHostAttr (hostn key : String) (s : Store) : Option Attr :=
  ((s : List Host).find? (hostPred hostn)).bind (fun h => h.attributes.find? (attrPred key))

/-- A stored metric, if present. -/
def getMetric (hostn mtrn : String) (s : Store) : Option Metric :=
  ((s : List Host).find? (hostPred hostn)).bind (fun h => h.metrics.find? (mtrPred mtrn))

/-- A stored service attribute, if present. -/
def getServiceAttr (hostn svcn key : String) (s : Store) : Option Attr :=
  (getService hostn svcn s).bind (fun sv => sv.attributes.find? (attrPred key))

/-- A stored metric attribute, if present. -/
def getMetricAttr (hostn mtrn key : String) (s : Store) : Option Attr :=
  (getMetric hostn mtrn s).bind (fun m => m.attributes.find? (attrPred key))

/-- Counterexample to claim C4 as stated: after `store_host("h",10);
store_host("h",20)` the updated interval is 10 — the full spacing sample —
whereas the claimed formula `0.9·old_interval + 0.1·(new − old)` with
`old_interval = 0` yields `(9·0 + (20 − 10)) / 10 = 1` (under truncation
or rounding alike). -/
theorem interval_formula_cex :
    getHostInterval "h" (applyOps [.host "h" 10, .host "h" 20] []) = some 10 ∧
    (9 * 0 + (20 - 10)) / 10 = 1 ∧ (10 : Nat) ≠ 1 := by
  refine ⟨by decide, by decide, by decide⟩

/-- Claim C4 (amended): on an update of an already existing entity with a
strictly newer timestamp, the new interval equals `⌊0.9·old_interval +
0.1·(new − old)⌋` when `old_interval ≠ 0`, and equals the full spacing
`new − old` when `old_interval = 0`; the very first update (creation) sets
`interval = 0`, and updates with an equal or older timestamp change
nothing.  Stated for every entity kind: hosts, services, metrics, host
attributes, service attributes and metric attributes, each with its
create, strictly-newer and equal-or-older case. -/
theorem interval_update_spec (s : Store) (hostn svcn mtrn key : String)
    (ref : Option (String × String)) (v : SDBData) (ts : Nat) :
    ((s : List Host).find? (hostPred hostn) = none →
      ((sdb_store_host hostn ts s).2 : List Host).find? (hostPred hostn)
        = some (newHost hostn ts) ∧ (newHost hostn ts).interval = 0) ∧
    (∀ h, (s : List Host).find? (hostPred hostn) = some h → h.last_update < ts →
      ((sdb_store_host hostn ts s).2 : List Host).find? (hostPred hostn)
        = some { h with last_update := ts, interval := if h.interval = 0 then ts - h.last_update else (9 * h.interval + (ts - h.last_update)) / 10 }) ∧
    (∀ h, (s : List Host).find? (hostPred hostn) = some h → ts ≤ h.last_update →
      sdb_store_host hostn ts s = (1, s)) ∧
    (∀ h, (s : List Host).find? (hostPred hostn) = some h →
      h.services.find? (svcPred svcn) = none →
      getService hostn svcn ((sdb_store_service hostn svcn ts s).2)
        = some (newService svcn ts) ∧ (newService svcn ts).interval = 0) ∧
    (∀ h sv, (s : List Host).find? (hostPred hostn) = some h →
      h.services.find? (svcPred svcn) = some sv → sv.last_update < ts →
      getService hostn svcn ((sdb_store_service hostn svcn ts s).2)
        = some { sv with last_update := ts, interval := if sv.interval = 0 then ts - sv.last_update else (9 * sv.interval + (ts - sv.last_update)) / 10 }) ∧
    (∀ h sv, (s : List Host).find? (hostPred hostn) = some h →
      h.services.find? (svcPred svcn) = some sv → ts ≤ sv.last_update →
      sdb_store_service hostn svcn ts s = (1, s)) ∧
    (∀ h, (s : List Host).find? (hostPred hostn) = some h →
      h.metrics.find? (mtrPred mtrn) = none →
      getMetric hostn mtrn ((sdb_store_metric hostn mtrn ref ts s).2)
        = some (newMetric mtrn ref ts) ∧ (newMetric mtrn ref ts).interval = 0) ∧
    (∀ h m, (s : List Host).find? (hostPred hostn) = some h →
      h.metrics.find? (mtrPred mtrn) = some m → m.last_update < ts →
      getMetric hostn mtrn ((sdb_store_metric hostn mtrn ref ts s).2)
        = some { m with last_update := ts, interval := if m.interval = 0 then ts - m.last_update else (9 * m.interval + (ts - m.last_update)) / 10, store_ref := (match ref with | some r => some r | none => m.store_ref) }) ∧
    (∀ h m, (s : List Host).find? (hostPred hostn) = some h →
      h.metrics.find? (mtrPred mtrn) = some m → ts ≤ m.last_update →
      sdb_store_metric hostn mtrn ref ts s = (1, s)) ∧
    (∀ h, (s : List Host).find? (hostPred hostn) = some h →
      h.attributes.find? (attrPred key) = none →
      getHostAttr hostn key ((sdb_store_attribute hostn key v ts s).2)
        = some (newAttr key v ts) ∧ (newAttr key v ts).interval = 0) ∧
    (∀ h a, (s : List Host).find? (hostPred hostn) = some h →
      h.attributes.find? (attrPred key) = some a → a.last_update < ts →
      getHostAttr hostn key ((sdb_store_attribute hostn key v ts s).2)
        = some { a with value := v, last_update := ts, interval := if a.interval = 0 then ts - a.last_update else (9 * a.interval + (ts - a.last_update)) / 10 }) ∧
    (∀ h a, (s : List Host).find? (hostPred hostn) = some h →
      h.attributes.find? (attrPred key) = some a → ts ≤ a.last_update →
      sdb_store_attribute hostn key v ts s = (1, s)) ∧
    (∀ h sv, (s : List Host).find? (hostPred hostn) = some h →
      h.services.find? (svcPred svcn) = some sv →
      sv.attributes.find? (attrPred key) = none →
      getServiceAttr hostn svcn key ((sdb_store_service_attr hostn svcn key v ts s).2)
        = some (newAttr key v ts) ∧ (newAttr key v ts).interval = 0) ∧
    (∀ h sv a, (s : List Host).find? (hostPred hostn) = some h →
      h.services.find? (svcPred svcn) = some sv →
      sv.attributes.find? (attrPred key) = some a → a.last_update < ts →
      getServiceAttr hostn svcn key ((sdb_store_service_attr hostn svcn key v ts s).2)
        = some { a with value := v, last_update := ts, interval := if a.interval = 0 then ts - a.last_update else (9 * a.interval + (ts - a.last_update)) / 10 }) ∧
    (∀ h sv a, (s : List Host).find? (hostPred hostn) = some h →
      h.services.find? (svcPred svcn) = some sv →
      sv.attributes.find? (attrPred key) = some a → ts ≤ a.last_update →
      sdb_store_service_attr hostn svcn key v ts s = (1, s)) ∧
    (∀ h m, (s : List Host).find? (hostPred hostn) = some h →
      h.metrics.find? (mtrPred mtrn) = some m →
      m.attributes.find? (attrPred key) = none →
      getMetricAttr hostn mtrn key ((sdb_store_metric_attr hostn mtrn key v ts s).2)
        = some (newAttr key v ts) ∧ (newAttr key v ts).interval = 0) ∧
    (∀ h m a, (s : List Host).find? (hostPred hostn) = some h →
      h.metrics.find? (mtrPred mtrn) = some m →
      m.attributes.find? (attrPred key) = some a → a.last_update < ts →
      getMetricAttr hostn mtrn key ((sdb_store_metric_attr hostn mtrn key v ts s).2)
        = some { a with value := v, last_update := ts, interval := if a.interval = 0 then ts - a.last_update else (9 * a.interval + (ts - a.last_update)) / 10 }) ∧
    (∀ h m a, (s : List Host).find? (hostPred hostn) = some h →
      h.metrics.find? (mtrPred mtrn) = some m →
      m.attributes.find? (attrPred key) = some a → ts ≤ a.last_update →
      sdb_store_metric_attr hostn mtrn key v ts s = (1, s)) := by
  refine ⟨?_, ?_, ?_, ?_, ?_, ?_, ?_, ?_, ?_, ?_, ?_, ?_, ?_, ?_, ?_, ?_, ?_, ?_⟩
  · intro hnone
    rw [sdb_store_host, hnone]
    refine ⟨?_, rfl⟩
    rw [find?_insertByKey_none _ hnone, hostPred_newHost rfl]
    simp
  · intro h hfind hlt
    rw [sdb_store_host, hfind]
    simp only [hlt, if_pos]
    rw [find?_updateFirst (fun x hx => by rwa [hostPred_hostMerge]), hfind]
    simp [hostMerge, updInterval]
  · intro h hfind hle
    rw [sdb_store_host, hfind]
    simp [Nat.not_lt.mpr hle]
  · intro h hfind hsvc
    rw [sdb_store_service, hfind]
    simp only [hsvc]
    refine ⟨?_, rfl⟩
    rw [getService]
    rw [find?_updateFirst (fun x hx => by simpa [hostPred] using hx), hfind]
    simp only [Option.map_some', Option.some_bind]
    rw [find?_insertByKey_none _ hsvc]
    simp [svcPred, newService]
  · intro h sv hfind hsvc hlt
    rw [sdb_store_service, hfind]
    simp only [hsvc, hlt, if_pos]
    rw [getService]
    rw [find?_updateFirst (fun x hx => by simpa [hostPred] using hx), hfind]
    simp only [Option.map_some', Option.some_bind]
    rw [find?_updateFirst (fun x hx => by simpa [svcPred, svcMerge] using hx), hsvc]
    simp [svcMerge, updInterval]
  · intro h sv hfind hsvc hle
    rw [sdb_store_service, hfind]
    simp only [hsvc]
    simp [Nat.not_lt.mpr hle]
  · intro h hfind hmtr
    rw [sdb_store_metric, hfind]
    simp only [hmtr]
    refine ⟨?_, rfl⟩
    rw [getMetric]
    rw [find?_updateFirst (fun x hx => by simpa [hostPred] using hx), hfind]
    simp only [Option.map_some', Option.some_bind]
    rw [find?_insertByKey_none _ hmtr]
    simp [mtrPred, newMetric]
  · intro h m hfind hmtr hlt
    rw [sdb_store_metric, hfind]
    simp only [hmtr, hlt, if_pos]
    rw [getMetric]
    rw [find?_updateFirst (fun x hx => by simpa [hostPred] using hx), hfind]
    simp only [Option.map_some', Option.some_bind]
    rw [find?_updateFirst (fun x hx => by simpa [mtrPred, mtrMerge] using hx), hmtr]
    simp [mtrMerge, updInterval]
  · intro h m hfind hmtr hle
    rw [sdb_store_metric, hfind]
    simp only [hmtr]
    simp [Nat.not_lt.mpr hle]
  · intro h hfind hattr
    rw [sdb_store_attribute, hfind]
    simp only [hattr]
    refine ⟨?_, rfl⟩
    rw [getHostAttr]
    rw [find?_updateFirst (fun x hx => by simpa [hostPred] using hx), hfind]
    simp only [Option.map_some', Option.some_bind]
    rw [find?_insertByKey_none _ hattr]
    simp [attrPred, newAttr]
  · intro h a hfind hattr hlt
    rw [sdb_store_attribute, hfind]
    simp only [hattr, hlt, if_pos]
    rw [getHostAttr]
    rw [find?_updateFirst (fun x hx => by simpa [hostPred] using hx), hfind]
    simp only [Option.map_some', Option.some_bind]
    rw [find?_updateFirst (fun x hx => by simpa [attrPred, attrMerge] using hx), hattr]
    simp [attrMerge, updInterval]
  · intro h a hfind hattr hle
    rw [sdb_store_attribute, hfind]
    simp only [hattr]
    simp [Nat.not_lt.mpr hle]
  · intro h sv hfind hsvc hattr
    rw [sdb_store_service_attr, hfind]
    simp only [hsvc, hattr]
    refine ⟨?_, rfl⟩
    rw [getServiceAttr, getService]
    rw [find?_updateFirst (fun x hx => by simpa [hostPred] using hx), hfind]
    simp only [Option.map_some', Option.some_bind]
    rw [find?_updateFirst (fun x hx => by simpa [svcPred] using hx), hsvc]
    simp only [Option.map_some', Option.some_bind]
    rw [find?_insertByKey_none _ hattr]
    simp [attrPred, newAttr]
  · intro h sv a hfind hsvc hattr hlt
    rw [sdb_store_service_attr, hfind]
    simp only [hsvc, hattr, hlt, if_pos]
    rw [getServiceAttr, getService]
    rw [find?_updateFirst (fun x hx => by simpa [hostPred] using hx), hfind]
    simp only [Option.map_some', Option.some_bind]
    rw [find?_updateFirst (fun x hx => by simpa [svcPred] using hx), hsvc]
    simp only [Option.map_some', Option.some_bind]
    rw [find?_updateFirst (fun x hx => by simpa [attrPred, attrMerge] using hx), hattr]
    simp [attrMerge, updInterval]
  · intro h sv a hfind hsvc hattr hle
    rw [sdb_store_service_attr, hfind]
    simp only [hsvc, hattr]
    simp [Nat.not_lt.mpr hle]
  · intro h m hfind hmtr hattr
    rw [sdb_store_metric_attr, hfind]
    simp only [hmtr, hattr]
    refine ⟨?_, rfl⟩
    rw [getMetricAttr, getMetric]
    rw [find?_updateFirst (fun x hx => by simpa [hostPred] using hx), hfind]
    simp only [Option.map_some', Option.some_bind]
    rw [find?_updateFirst (fun x hx => by simpa [mtrPred] using hx), hmtr]
    simp only [Option.map_some', Option.some_bind]
    rw [find?_insertByKey_none _ hattr]
    simp [attrPred, newAttr]
  · intro h m a hfind hmtr hattr hlt
    rw [sdb_store_metric_attr, hfind]
    simp only [hmtr, hattr, hlt, if_pos]
    rw [getMetricAttr, getMetric]
    rw [find?_updateFirst (fun x hx => by simpa [hostPred] using hx), hfind]
    simp only [Option.map_some', Option.some_bind]
    rw [find?_updateFirst (fun x hx => by simpa [mtrPred] using hx), hmtr]
    simp only [Option.map_some', Option.some_bind]
    rw [find?_updateFirst (fun x hx => by simpa [attrPred, attrMerge] using hx), hattr]
    simp [attrMerge, updInterval]
  · intro h m a hfind hmtr hattr hle
    rw [sdb_store_metric_attr, hfind]
    simp only [hmtr, hattr]
    simp [Nat.not_lt.mpr hle]

/-- Witness for `interval_update_spec`: a host at `last_update = 20`,
`interval = 10` updated with timestamp 60 gets interval
`(9·10 + 40) / 10 = 13`, and a service created at timestamp 1 starts with
interval 0. -/
theorem interval_update_spec_witness :
    (((sdb_store_host "h" 60 (applyOps [.host "h" 10, .host "h" 20] [])).2 : List Host).find?
        (hostPred "h")
      = some { newHost "h" 10 with last_update := 60, interval := (9 * 10 + (60 - 20)) / 10 }) ∧
    getService "h" "s" ((sdb_store_service "h" "s" 1 ((sdb_store_host "h" 1 ([] : Store)).2)).2)
      = some (newService "s" 1) := by
  constructor
  · have h := (interval_update_spec (applyOps [.host "h" 10, .host "h" 20] []) "h" "s" "m" "k"
      none .Null 60).2.1 ({ newHost "h" 10 with last_update := 20, interval := 10 })
      (by decide) (by decide)
    simpa using h
  · have h := (interval_update_spec ((sdb_store_host "h" 1 ([] : Store)).2) "h" "s" "m" "k"
      none .Null 1).2.2.2.1 (newHost "h" 1) (by decide) (by decide)
    exact h.1

/-- Claim C5 (scenario S3), stage 1: the store after
`store_host("h",10..40)`. -/
def s3Stage1 : Store :=
  applyOps [.host "h" 10, .host "h" 20, .host "h" 30, .host "h" 40] []

/-- Claim C5, stage 2: four further updates with timestamp 40. -/
def s3Stage2 : Store :=
  applyOps [.host "h" 40, .host "h" 40, .host "h" 40, .host "h" 40] s3Stage1

/-- Claim C5, stage 3: one update with timestamp 60. -/
def s3Stage3 : Store := applyOps [.host "h" 60] s3Stage2

/-- Claim C5, stage 4: one update with timestamp 100. -/
def s3Stage4 : Store := applyOps [.host "h" 100] s3Stage3

/-- Claim C5: the interval of host "h" is 10 after the four initial
updates, still 10 after four repeats of timestamp 40, 11 after the update
at 60, and 13 after the update at 100. -/
theorem interval_scenario_spec :
    getHostInterval "h" s3Stage1 = some 10 ∧
    getHostInterval "h" s3Stage2 = some 10 ∧
    getHostInterval "h" s3Stage3 = some 11 ∧
    getHostInterval "h" s3Stage4 = some 13 := by
  refine ⟨by decide, by decide, by decide, by decide⟩

/-! ### Iteration and the store ordering invariant -/

/-- Strict ordering of hosts by case-insensitive name. -/
def hostKeyLt (a b : Host) : Prop := lexLt (ciKey a.name) (ciKey b.name) = true

/-- The store invariant: hosts are kept in strictly ascending
case-insensitive name order. -/
def StoreSorted (s : Store) : Prop := List.Pairwise hostKeyLt (s : List Host)

theorem storeSorted_updateFirst {p : Host → Bool} {f : Host → Host}
    (hf : ∀ z, (f z).name = z.name) {l : List Host} (hs : List.Pairwise hostKeyLt l) :
    List.Pairwise hostKeyLt (updateFirst p f l) :=
  pairwise_updateFirst (fun h : Host => ciKey h.name)
    (fun z => by show ciKey (f z).name = ciKey z.name; rw [hf z]) l hs

theorem storeSorted_insert {x : Host} {l : List Host} (hs : List.Pairwise hostKeyLt l)
    (hfresh : ∀ y ∈ l, ciKey x.name ≠ ciKey y.name) :
    List.Pairwise hostKeyLt (insertByKey (fun h => ciKey h.name) x l) :=
  pairwise_insertByKey (fun h : Host => ciKey h.name) l hs hfresh

theorem applyOp_sorted (op : StoreOp) (s : Store) (hs : StoreSorted s) :
    StoreSorted (applyOp op s).2 := by
  cases op with
  | host n ts =>
    simp only [applyOp, sdb_store_host]
    cases hfind : (s : List Host).find? (hostPred n) with
    | none =>
      refine storeSorted_insert hs ?_
      intro y hy hkey
      have hnp := List.find?_eq_none.mp hfind y hy
      apply hnp
      have hx : ciKey (newHost n ts).name = ciKey n := rfl
      rw [hx] at hkey
      simp [hostPred, hkey.symm]
    | some h =>
      dsimp only
      by_cases hlt : h.last_update < ts
      · rw [if_pos hlt]
        refine storeSorted_updateFirst ?_ hs
        intro z
        rfl
      · rw [if_neg hlt]
        exact hs
  | service hn n ts =>
    simp only [applyOp, sdb_store_service]
    split
    · exact hs
    · split
      · refine storeSorted_updateFirst ?_ hs
        intro z
        rfl
      · split
        · refine storeSorted_updateFirst ?_ hs
          intro z
          rfl
        · exact hs
  | metric hn n ref ts =>
    simp only [applyOp, sdb_store_metric]
    split
    · exact hs
    · split
      · refine storeSorted_updateFirst ?_ hs
        intro z
        rfl
      · split
        · refine storeSorted_updateFirst ?_ hs
          intro z
          rfl
        · exact hs
  | attr hn k v ts =>
    simp only [applyOp, sdb_store_attribute]
    split
    · exact hs
    · split
      · refine storeSorted_updateFirst ?_ hs
        intro z
        rfl
      · split
        · refine storeSorted_updateFirst ?_ hs
          intro z
          rfl
        · exact hs
  | serviceAttr hn sn k v ts =>
    simp only [applyOp, sdb_store_service_attr]
    split
    · exact hs
    · split
      · exact hs
      · split
        · refine storeSorted_updateFirst ?_ hs
          intro z
          rfl
        · split
          · refine storeSorted_updateFirst ?_ hs
            intro z
            rfl
          · exact hs
  | metricAttr hn mn k v ts =>
    simp only [applyOp, sdb_store_metric_attr]
    split
    · exact hs
    · split
      · exact hs
      · split
        · refine storeSorted_updateFirst ?_ hs
          intro z
          rfl
        · split
          · refine storeSorted_updateFirst ?_ hs
            intro z
            rfl
          · exact hs

theorem applyOps_sorted : ∀ (ops : List StoreOp) (s : Store),
    StoreSorted s → StoreSorted (applyOps ops s) := by
  intro ops
  induction ops with
  | nil => intro s hs; exact hs
  | cons op rest ih => intro s hs; exact ih _ (applyOp_sorted op s hs)

theorem iterHosts_all_zero {γ : Type} (cb : Host → γ → Int × γ)
    (hcb : ∀ h c, (cb h c).1 = 0) :
    ∀ (l : List Host) (ctx : γ),
      iterHosts cb l ctx = (0, l.foldl (fun c h => (cb h c).2) ctx) := by
  intro l
  induction l with
  | nil => intro ctx; rfl
  | cons h t ih => intro ctx; simp [iterHosts, hcb h ctx, ih]

theorem foldl_count (l : List Host) : ∀ n : Nat, l.foldl (fun c _ => c + 1) n = n + l.length := by
  induction l with
  | nil => intro n; simp
  | cons x xs ih => intro n; simp [ih]; omega

/-- A run of callback invocations that all return 0: invoking `cb` on
each host in turn, threading the context, yields status 0 every time. -/
def zeroRun (cb : Host → γ → Int × γ) : List Host → γ → Bool
  | [], _ => true
  | h :: t, ctx => (cb h ctx).1 == 0 && zeroRun cb t (cb h ctx).2

theorem iterHosts_stop {γ : Type} (cb : Host → γ → Int × γ) :
    ∀ (l1 : List Host) (ctx : γ) (h : Host) (l2 : List Host),
      zeroRun cb l1 ctx = true →
      (cb h (l1.foldl (fun c x => (cb x c).2) ctx)).1 ≠ 0 →
      iterHosts cb (l1 ++ h :: l2) ctx
        = (-1, (cb h (l1.foldl (fun c x => (cb x c).2) ctx)).2) := by
  intro l1
  induction l1 with
  | nil =>
    intro ctx h l2 _ hnz
    simp only [List.nil_append, List.foldl_nil] at hnz ⊢
    simp only [iterHosts]
    rw [if_pos hnz]
  | cons x xs ih =>
    intro ctx h l2 hrun hnz
    have hx : (cb x ctx).1 = 0 ∧ zeroRun cb xs (cb x ctx).2 = true := by
      simpa [zeroRun, Bool.and_eq_true, beq_iff_eq] using hrun
    simp only [List.foldl_cons] at hnz
    simp only [List.cons_append, iterHosts, hx.1]
    rw [if_neg (by simp)]
    exact ih (cb x ctx).2 h l2 hx.2 hnz

/-- Claim C6: `iterate` on the empty store returns −1 with the context
untouched (no callback invocation); on a non-empty store with a callback
that keeps returning 0 it folds the callback over every host in list
order — in particular the counting callback is invoked exactly N times —
and returns 0; when the invocations on a prefix of the hosts return 0 and
the next invocation returns non-zero, iteration stops right after that
invocation — the remaining hosts never influence the result — and returns
−1; and every store reachable by the mutation operations keeps its hosts
in strictly ascending case-insensitive name order, so list order is
ascending name order. -/
theorem store_iterate_spec :
    (∀ (γ : Type) (cb : Host → γ → Int × γ) (ctx : γ),
      sdb_store_iterate cb ctx ([] : Store) = (-1, ctx)) ∧
    (∀ (γ : Type) (cb : Host → γ → Int × γ) (ctx : γ) (s : Store),
      (s : List Host) ≠ [] → (∀ h c, (cb h c).1 = 0) →
      sdb_store_iterate cb ctx s = (0, (s : List Host).foldl (fun c h => (cb h c).2) ctx)) ∧
    (∀ s : Store, (s : List Host) ≠ [] →
      sdb_store_iterate (fun _ (k : Nat) => (0, k + 1)) 0 s = (0, (s : List Host).length)) ∧
    (∀ (γ : Type) (cb : Host → γ → Int × γ) (ctx : γ) (l1 : List Host) (h : Host)
        (l2 : List Host),
      zeroRun cb l1 ctx = true →
      (cb h (l1.foldl (fun c x => (cb x c).2) ctx)).1 ≠ 0 →
      sdb_store_iterate cb ctx ((l1 ++ h :: l2 : List Host) : Store)
        = (-1, (cb h (l1.foldl (fun c x => (cb x c).2) ctx)).2)) ∧
    (∀ (ops : List StoreOp) (s : Store), StoreSorted s → StoreSorted (applyOps ops s)) := by
  refine ⟨?_, ?_, ?_, ?_, applyOps_sorted⟩
  · intro γ cb ctx
    rfl
  · intro γ cb ctx s hne hcb
    match s, hne with
    | (h :: t : List Host), _ =>
      exact iterHosts_all_zero cb hcb (h :: t) ctx
  · intro s hne
    match s, hne with
    | (h :: t : List Host), _ =>
      show iterHosts (fun _ (k : Nat) => (0, k + 1)) (h :: t) 0 = (0, (h :: t).length)
      rw [iterHosts_all_zero (fun _ (k : Nat) => (0, k + 1)) (fun _ _ => rfl) (h :: t) 0]
      rw [foldl_count]
      simp
  · intro γ cb ctx l1 h l2 hrun hnz
    have hiter := iterHosts_stop cb l1 ctx h l2 hrun hnz
    cases l1 with
    | nil => exact hiter
    | cons x xs => exact hiter

/-- Witness for `store_iterate_spec`: the `test_iterate` scenario plus a
mid-list stop — the empty store yields −1 without touching the counter,
the two-host store counts 2 invocations, and a callback failing on the
second of three hosts is invoked exactly twice; the populated store is
name-sorted. -/
theorem store_iterate_spec_witness :
    sdb_store_iterate (fun _ (k : Nat) => (0, k + 1)) 0 ([] : Store) = (-1, 0) ∧
    sdb_store_iterate (fun _ (k : Nat) => (0, k + 1)) 0
      (applyOps [.host "h2" 3, .host "h1" 1] []) = (0, 2) ∧
    sdb_store_iterate (fun h (k : Nat) => (if h.name == "h2" then -1 else 0, k + 1)) 0
      (([newHost "h1" 1] ++ newHost "h2" 3 :: [newHost "h3" 5] : List Host) : Store)
      = (-1, 2) ∧
    StoreSorted (applyOps [.host "h2" 3, .host "h1" 1] []) := by
  refine ⟨store_iterate_spec.1 Nat _ 0, ?_, ?_, ?_⟩
  · have h := store_iterate_spec.2.2.1 (applyOps [.host "h2" 3, .host "h1" 1] [])
      (by decide)
    rw [h]
    decide
  · have h := store_iterate_spec.2.2.2.1 Nat
      (fun h (k : Nat) => (if h.name == "h2" then -1 else 0, k + 1)) 0
      [newHost "h1" 1] (newHost "h2" 3) [newHost "h3" 5] (by decide) (by decide)
    rw [h]
    decide
  · exact store_iterate_spec.2.2.2.2 [.host "h2" 3, .host "h1" 1] []
      (List.Pairwise.nil)

/-! ### Frontend claims -/

/-- Whether an event is a warning-level log emission. -/
def isWarnB : Event → Bool
  | .log p _ => p == SDB_LOG_WARNING
  | _ => false

theorem exec_query_other (env : QueryEnv) (q : String) (t : Nat)
    (h : 0 ≤ (env.plugin (.other t)).1) :
    exec_query env q (some (.other t)) =
      (0, (env.plugin (.other t)).2.2,
        [Event.pluginQuery (.other t),
         Event.send (env.plugin (.other t)).1 (env.plugin (.other t)).2.1]) := by
  simp only [exec_query]
  rw [if_neg (Int.not_lt.mpr h)]
  rfl

theorem exec_query_no_warning (env : QueryEnv) (q : String) (a : AstNode) :
    ((exec_query env q (some a)).2.2).countP isWarnB = 0 := by
  cases a with
  | store st =>
    simp only [exec_query, exec_store]
    cases hdisp : execStoreDispatch st with
    | error msg =>
      simp [isWarnB, SDB_LOG_ERR, SDB_LOG_WARNING, List.countP_cons]
    | ok r3 =>
      obtain ⟨ty, qname, call⟩ := r3
      by_cases hneg : env.storeFn call < 0
      · simp [hneg, isWarnB, SDB_LOG_ERR, SDB_LOG_WARNING, List.countP_cons]
      · by_cases hz : env.storeFn call = 0
        · simp [hneg, hz, isWarnB, SDB_CONNECTION_OK, List.countP_cons]
        · simp [hneg, hz, isWarnB, SDB_CONNECTION_OK, List.countP_cons]
  | other t =>
    simp only [exec_query]
    by_cases hneg : (env.plugin (.other t)).1 < 0
    · simp [hneg, isWarnB, SDB_LOG_ERR, SDB_LOG_WARNING, List.countP_cons]
    · simp [hneg, isWarnB, List.countP_cons]

/-- Claim C7: a QUERY whose payload parses to more than one statement
executes only the first statement — for a non-STORE statement the trace
holds exactly one `sdb_plugin_query` invocation, for that statement, and
its single reply frame — and prepends exactly one warning-level log frame
naming how many statements were ignored; with two statements the text
names "1 command". -/
theorem conn_query_multi_statement_spec (env : QueryEnv) (q : String) (a b : AstNode)
    (rest : List AstNode) :
    sdb_conn_query env SDB_CONNECTION_QUERY q (.ok (a :: b :: rest)) =
      ((exec_query env q (some a)).1, (exec_query env q (some a)).2.1,
        Event.log SDB_LOG_WARNING (ignoredMsg (rest.length + 1) (rest.length + 2) q)
          :: (exec_query env q (some a)).2.2) ∧
    (rest = [] → ignoredMsg (rest.length + 1) (rest.length + 2) q
        = "frontend: Ignoring 1 command in multi-statement query \x27" ++ q ++ "\x27") ∧
    ((sdb_conn_query env SDB_CONNECTION_QUERY q (.ok (a :: b :: rest))).2.2).countP isWarnB
        = 1 ∧
    (∀ t, a = AstNode.other t → 0 ≤ (env.plugin a).1 →
      sdb_conn_query env SDB_CONNECTION_QUERY q (.ok (a :: b :: rest)) =
        (0, (env.plugin a).2.2,
          [Event.log SDB_LOG_WARNING (ignoredMsg (rest.length + 1) (rest.length + 2) q),
           Event.pluginQuery a,
           Event.send (env.plugin a).1 (env.plugin a).2.1])) := by
  have hmain : sdb_conn_query env SDB_CONNECTION_QUERY q (.ok (a :: b :: rest)) =
      ((exec_query env q (some a)).1, (exec_query env q (some a)).2.1,
        Event.log SDB_LOG_WARNING (ignoredMsg (rest.length + 1) (rest.length + 2) q)
          :: (exec_query env q (some a)).2.2) := by
    simp only [sdb_conn_query]
    rw [if_neg (by decide)]
    simp [List.length_cons]
  refine ⟨hmain, ?_, ?_, ?_⟩
  · intro hrest
    subst hrest
    rfl
  · rw [hmain]
    simp only [List.countP_cons, exec_query_no_warning env q a]
    simp [isWarnB]
  · intro t ha hpos
    subst ha
    rw [hmain, exec_query_other env q t hpos]

/-- Witness for `conn_query_multi_statement_spec`: a two-statement query
against a plugin that replies with a DATA frame carrying "out". -/
theorem conn_query_multi_statement_spec_witness :
    sdb_conn_query
        { plugin := fun _ => (SDB_CONNECTION_DATA, "out", ""), storeFn := fun _ => 0 }
        SDB_CONNECTION_QUERY "LIST; LIST" (.ok [.other 9, .other 9]) =
      (0, "",
        [Event.log SDB_LOG_WARNING
            ("frontend: Ignoring 1 command in multi-statement query \x27LIST; LIST\x27"),
         Event.pluginQuery (.other 9),
         Event.send SDB_CONNECTION_DATA "out"]) := by
  have h := conn_query_multi_statement_spec
    { plugin := fun _ => (SDB_CONNECTION_DATA, "out", ""), storeFn := fun _ => 0 }
    "LIST; LIST" (.other 9) (.other 9) []
  have h4 := h.2.2.2 9 rfl (by decide)
  rw [h4]
  have hmsg := h.2.1 rfl
  rw [hmsg]
  rfl

/-- Claim C10: a QUERY whose payload parses to an empty statement list
sends exactly one `DATA` frame with a zero-length payload, executes
nothing (no plugin invocation appears in the trace), and returns 0. -/
theorem conn_query_empty_spec (env : QueryEnv) (q : String) :
    sdb_conn_query env SDB_CONNECTION_QUERY q (.ok []) =
      (0, "", [Event.send SDB_CONNECTION_DATA ""]) := by
  simp only [sdb_conn_query]
  rw [if_neg (by decide)]

/-! ### Store-reply messages of `exec_store` (claim C9) -/

/-- The kind name of a STORE target as the claim words it. -/
def claimKindName (st : AstStore) : String :=
  if st.obj_type = SDB_HOST then "host"
  else if st.obj_type = SDB_SERVICE then "service"
  else if st.obj_type = SDB_METRIC then "metric"
  else if st.parent_type = SDB_SERVICE then "service attribute"
  else if st.parent_type = SDB_METRIC then "metric attribute"
  else "host attribute"

/-- The qualified name as the claim words it: `name` for HOST,
`hostname.name` for SERVICE and METRIC, `hostname.parent.name` for an
attribute with a parent and `hostname.name` for a host attribute. -/
def claimQualifiedName (st : AstStore) : String :=
  if st.obj_type = SDB_HOST then st.name
  else if st.obj_type = SDB_SERVICE ∨ st.obj_type = SDB_METRIC then
    st.hostname.getD "" ++ "." ++ st.name
  else
    match st.parent with
    | some p => st.hostname.getD "" ++ "." ++ p ++ "." ++ st.name
    | none => st.hostname.getD "" ++ "." ++ st.name

/-- The composed type bits of a STORE target: the object type, with the
parent type (or HOST for a host attribute) OR-ed in for attributes. -/
def claimTypeBits (st : AstStore) : Nat :=
  if st.obj_type = SDB_ATTRIBUTE then
    if st.parent_type = 0 then SDB_ATTRIBUTE + SDB_HOST else SDB_ATTRIBUTE + st.parent_type
  else st.obj_type

/-- The reply triple (status, reply buffer, error buffer) the claim
predicts for `exec_store` given the store call's result. -/
def claimStoreReply (st : AstStore) (status : Int) : Int × String × String :=
  if status < 0 then
    (-1, "", "STORE: Failed to store " ++ claimKindName st ++ " object")
  else if status = 0 then
    (SDB_CONNECTION_OK,
      "Successfully stored " ++ claimKindName st ++ " " ++ claimQualifiedName st, "")
  else
    (SDB_CONNECTION_OK,
      capitalize1 (claimKindName st) ++ " " ++ claimQualifiedName st ++ " already up to date",
      "")

/-- Shape constraints the analyzer guarantees for a STORE node: a known
object type, and for ATTRIBUTE a parent type that is 0 (host attribute,
no parent name) or SERVICE/METRIC (with a parent name). -/
def wfStoreNode (st : AstStore) : Prop :=
  st.obj_type = SDB_HOST ∨ st.obj_type = SDB_SERVICE ∨ st.obj_type = SDB_METRIC ∨
  (st.obj_type = SDB_ATTRIBUTE ∧
    ((st.parent_type = 0 ∧ st.parent = none) ∨
     ((st.parent_type = SDB_SERVICE ∨ st.parent_type = SDB_METRIC) ∧ st.parent.isSome)))

/-- Claim C9: for every STORE statement `exec_store` executes, a store
result of 0 produces "Successfully stored <KIND> <qualified-name>" and a
result of 1 produces "<KIND> <qualified-name> already up to date" (first
letter capitalized), with the qualified name per the claim's rules; the
function returns `SDB_CONNECTION_OK` on success and −1 with a diagnostic
in the error buffer on a store rejection. -/
theorem exec_store_reply_spec (st : AstStore) (status : Int)
    (pfn : AstNode → Int × String × String)
    (hwf : wfStoreNode st) (hst : status = -1 ∨ status = 0 ∨ status = 1) :
    ((exec_store { plugin := pfn, storeFn := fun _ => status } st).status,
     (exec_store { plugin := pfn, storeFn := fun _ => status } st).buf,
     (exec_store { plugin := pfn, storeFn := fun _ => status } st).errbuf)
      = claimStoreReply st status := by
  have hdisp : ∃ call, execStoreDispatch st
      = .ok (claimTypeBits st, claimQualifiedName st, call) ∧
      typeToName (claimTypeBits st) = claimKindName st := by
    rcases hwf with h1 | h2 | h3 | ⟨h4, hp⟩
    · refine ⟨.host st.name st.last_update, ?_, ?_⟩
      · simp [execStoreDispatch, claimTypeBits, claimQualifiedName, h1,
          SDB_HOST, SDB_SERVICE, SDB_METRIC, SDB_ATTRIBUTE]
      · simp [claimTypeBits, h1, typeToName, claimKindName,
          SDB_HOST, SDB_SERVICE, SDB_METRIC, SDB_ATTRIBUTE]
    · refine ⟨.service (st.hostname.getD "") st.name st.last_update, ?_, ?_⟩
      · simp [execStoreDispatch, claimTypeBits, claimQualifiedName, h2,
          SDB_HOST, SDB_SERVICE, SDB_METRIC, SDB_ATTRIBUTE]
      · simp [claimTypeBits, h2, typeToName, claimKindName,
          SDB_HOST, SDB_SERVICE, SDB_METRIC, SDB_ATTRIBUTE]
    · refine ⟨.metric (st.hostname.getD "") st.name st.store_type st.store_id
        st.last_update, ?_, ?_⟩
      · simp [execStoreDispatch, claimTypeBits, claimQualifiedName, h3,
          SDB_HOST, SDB_SERVICE, SDB_METRIC, SDB_ATTRIBUTE]
      · simp [claimTypeBits, h3, typeToName, claimKindName,
          SDB_HOST, SDB_SERVICE, SDB_METRIC, SDB_ATTRIBUTE]
    · rcases hp with ⟨hpt, hpn⟩ | ⟨hpt, hps⟩
      · refine ⟨.attr (st.hostname.getD "") st.name st.value st.last_update, ?_, ?_⟩
        · simp [execStoreDispatch, claimTypeBits, claimQualifiedName, h4, hpt, hpn,
            SDB_HOST, SDB_SERVICE, SDB_METRIC, SDB_ATTRIBUTE]
        · simp [claimTypeBits, h4, hpt, typeToName, claimKindName,
            SDB_HOST, SDB_SERVICE, SDB_METRIC, SDB_ATTRIBUTE]
      · obtain ⟨p, hp⟩ := Option.isSome_iff_exists.mp hps
        rcases hpt with hpt | hpt
        · refine ⟨.serviceAttr (st.hostname.getD "") (st.parent.getD "") st.name
            st.value st.last_update, ?_, ?_⟩
          · simp [execStoreDispatch, claimTypeBits, claimQualifiedName, h4, hpt, hp,
              SDB_HOST, SDB_SERVICE, SDB_METRIC, SDB_ATTRIBUTE]
          · simp [claimTypeBits, h4, hpt, typeToName, claimKindName,
              SDB_HOST, SDB_SERVICE, SDB_METRIC, SDB_ATTRIBUTE]
        · refine ⟨.metricAttr (st.hostname.getD "") (st.parent.getD "") st.name
            st.value st.last_update, ?_, ?_⟩
          · simp [execStoreDispatch, claimTypeBits, claimQualifiedName, h4, hpt, hp,
              SDB_HOST, SDB_SERVICE, SDB_METRIC, SDB_ATTRIBUTE]
          · simp [claimTypeBits, h4, hpt, typeToName, claimKindName,
              SDB_HOST, SDB_SERVICE, SDB_METRIC, SDB_ATTRIBUTE]
  obtain ⟨call, hd, hty⟩ := hdisp
  simp only [exec_store, hd]
  rcases hst with rfl | rfl | rfl
  · simp [claimStoreReply, hty]
  · simp [claimStoreReply, hty]
  · simp [claimStoreReply, hty]

/-- Concrete STORE node used as witness input: a service `svc1` on host
`host1`. -/
def witnessServiceNode : AstStore :=
  ⟨SDB_SERVICE, some "host1", 0, none, "svc1", 42, none, none, .Null⟩

/-- Witness for `exec_store_reply_spec`: storing a service with store
result 0 replies `OK` with "Successfully stored service host1.svc1". -/
theorem exec_store_reply_spec_witness :
    ((exec_store { plugin := fun _ => (0, "", ""), storeFn := fun _ => 0 }
        witnessServiceNode).status,
     (exec_store { plugin := fun _ => (0, "", ""), storeFn := fun _ => 0 }
        witnessServiceNode).buf,
     (exec_store { plugin := fun _ => (0, "", ""), storeFn := fun _ => 0 }
        witnessServiceNode).errbuf)
      = (SDB_CONNECTION_OK, "Successfully stored service host1.svc1", "") := by
  have h := exec_store_reply_spec witnessServiceNode 0 (fun _ => (0, "", ""))
    (Or.inr (Or.inl rfl)) (Or.inr (Or.inl rfl))
  rw [h]
  decide

/-! ### Connection handshake (claim C8) -/

/-- Counterexample to claim C8 as stated: in the handshake state an `IDLE`
frame — a command code other than `STARTUP` — is skipped without any
"Authentication required" diagnostic and without a reply, matching the
`CONNECTION_IDLE` rows of `test_conn_setup`. -/
theorem conn_auth_required_cex :
    connCommand ⟨none, ""⟩ SDB_CONNECTION_IDLE "fakedata" = (⟨none, ""⟩, []) ∧
    (connCommand ⟨none, ""⟩ SDB_CONNECTION_IDLE "fakedata").1.errbuf
      ≠ "Authentication required" := by
  refine ⟨rfl, by decide⟩

/-- Claim C8 (amended): in the handshake state every command other than
`STARTUP` and `IDLE` (IDLE frames are skipped silently) puts
"Authentication required" in the error buffer and leaves the
authentication state unchanged; after a `STARTUP` frame carrying a
username, the username is recorded, `OK` is replied, and a subsequent
`PING` receives `OK` with an empty payload and an empty error buffer. -/
theorem conn_handshake_spec :
    (∀ (c : Conn) (cmd : Int) (payload : String),
      c.username = none → cmd ≠ SDB_CONNECTION_STARTUP → cmd ≠ SDB_CONNECTION_IDLE →
      connCommand c cmd payload = ({ c with errbuf := "Authentication required" }, []) ∧
      (connCommand c cmd payload).1.username = none) ∧
    (∀ (c : Conn) (u : String),
      (connCommand c SDB_CONNECTION_STARTUP u).1.username = some u ∧
      (connCommand c SDB_CONNECTION_STARTUP u).2 = [Event.send SDB_CONNECTION_OK ""] ∧
      connCommand (connCommand c SDB_CONNECTION_STARTUP u).1 SDB_CONNECTION_PING ""
        = ((connCommand c SDB_CONNECTION_STARTUP u).1,
           [Event.send SDB_CONNECTION_OK ""]) ∧
      (connCommand (connCommand c SDB_CONNECTION_STARTUP u).1 SDB_CONNECTION_PING "").1.errbuf
        = "") := by
  constructor
  · intro c cmd payload hu hns hni
    have hcond : ((⟨c.username, ""⟩ : Conn)).username = none ∧ cmd ≠ SDB_CONNECTION_STARTUP :=
      ⟨hu, hns⟩
    constructor
    · rw [connCommand, if_neg hni, if_pos hcond]
    · rw [connCommand, if_neg hni, if_pos hcond]
      exact hu
  · intro c u
    have hstart : connCommand c SDB_CONNECTION_STARTUP u
        = (⟨some u, ""⟩, [Event.send SDB_CONNECTION_OK ""]) := by
      rw [connCommand, if_neg (by decide)]
      rw [if_neg (by intro hc; exact hc.2 rfl)]
      rw [if_pos rfl]
    have hping : connCommand (⟨some u, ""⟩ : Conn) SDB_CONNECTION_PING ""
        = ((⟨some u, ""⟩ : Conn), [Event.send SDB_CONNECTION_OK ""]) := by
      rw [connCommand, if_neg (by decide)]
      rw [if_neg (by intro hc; cases hc.1)]
      rw [if_neg (by decide), if_pos rfl]
    refine ⟨by rw [hstart], by rw [hstart], ?_, ?_⟩
    · rw [hstart]
      exact hping
    · rw [hstart]
      rw [hping]

/-- Witness for `conn_handshake_spec`: the `test_conn_setup` scenario — a
`PING` before `STARTUP` yields "Authentication required" without changing
the authentication state, and a `PING` after `STARTUP{fakeuser}` gets `OK`
with an empty payload. -/
theorem conn_handshake_spec_witness :
    connCommand ⟨none, ""⟩ SDB_CONNECTION_PING "" = (⟨none, "Authentication required"⟩, []) ∧
    connCommand (connCommand ⟨none, ""⟩ SDB_CONNECTION_STARTUP "fakeuser").1
        SDB_CONNECTION_PING ""
      = ((connCommand ⟨none, ""⟩ SDB_CONNECTION_STARTUP "fakeuser").1,
         [Event.send SDB_CONNECTION_OK ""]) := by
  constructor
  · exact (conn_handshake_spec.1 ⟨none, ""⟩ SDB_CONNECTION_PING "" rfl (by decide)
      (by decide)).1
  · exact (conn_handshake_spec.2 ⟨none, ""⟩ "fakeuser").2.2.1

end SysDB
